import Mathlib

/-!
Shallow embedding of `src/get_submissions.py` (ml_attendance).

The file models the three functions of the source — `convert_image`,
`extract_url_parts` and `download_submissions` — as executable Lean
definitions, and proves the spec claims about them.

Modelling conventions:
* Python strings are Lean `String`s; where the source uses `str.lower`,
  `str.split`, `str.strip` or substring tests, we implement the same
  operation on the underlying character list (ASCII case folding; the
  source only ever compares ASCII literals).
* The filesystem is a finite association list from path to file; a file
  is either an openable image (with a color mode and encoded format) or
  a non-image whose `Image.open` raises `OSError`.
* Network responses are supplied as a finite script, one entry per HTTP
  response the server would give; environment effects (HTTP requests,
  `time.sleep`, `img.save`, `os.remove`, `Image.open`) are recorded as
  an event trace so temporal claims (order of save/remove, which request
  carries which query parameters) are checkable.
-/

namespace GetSubmissions

/-- ASCII lower-casing of one character, modelling `str.lower` on the ASCII
literals the source compares against. -/
def pyToLower (c : Char) : Char :=
  if 'A' ≤ c ∧ c ≤ 'Z' then Char.ofNat (c.toNat + 32) else c

/-- `s.lower()` (ASCII model). -/
def lowerStr (s : String) : String := ⟨s.data.map pyToLower⟩

/-- Does `l` occur at the head of `cs`? (helper for substring / startswith). -/
def leadsWith : List Char → List Char → Bool
  | [], _ => true
  | _ :: _, [] => false
  | a :: as, b :: bs => a == b && leadsWith as bs

/-- Python `needle in hay` on strings (substring occurrence). -/
def hasSub (needle : List Char) : List Char → Bool
  | [] => needle.isEmpty
  | c :: rest => leadsWith needle (c :: rest) || hasSub needle rest

/-- Python `s.startswith(pre)`. -/
def startsWithStr (pre s : String) : Bool := leadsWith pre.data s.data

/-- Python `s.split(c)` for a one-character separator. -/
def splitOnChar (c : Char) : List Char → List (List Char)
  | [] => [[]]
  | a :: rest =>
    let r := splitOnChar c rest
    if a = c then [] :: r
    else
      match r with
      | [] => [[a]]
      | g :: gs => (a :: g) :: gs

/-- The characters stripped by `.strip('<> ')` in the pagination parser. -/
def isStripChar (c : Char) : Bool := c == '<' || c == '>' || c == ' '

/-- Python `s.strip('<> ')`: remove those characters from both ends. -/
def stripAngles (cs : List Char) : List Char :=
  ((cs.dropWhile isStripChar).reverse.dropWhile isStripChar).reverse

/-- Index of the last occurrence of `c` in `cs`, as Python `s.rfind(c)`
(`none` for "not found", i.e. Python's `-1`). -/
def rfindIdx : List Char → Char → Option Nat
  | [], _ => none
  | a :: rest, c =>
    match rfindIdx rest c with
    | some i => some (i + 1)
    | none => if a = c then some 0 else none

/-- `os.path.splitext`: split off the extension at the last dot of the last
path component, provided some non-dot character precedes that dot within the
component (so `.bashrc` has no extension).  Mirrors CPython's
`genericpath._splitext` with `sep = '/'`. -/
def splitext (p : String) : String × String :=
  let cs := p.data
  let dotI : Int := match rfindIdx cs '.' with | none => -1 | some i => (i : Int)
  let sepI : Int := match rfindIdx cs '/' with | none => -1 | some i => (i : Int)
  if dotI > sepI then
    let start := (sepI + 1).toNat
    let d := dotI.toNat
    if ((cs.drop start).take (d - start)).any (fun c => c != '.') then
      (⟨cs.take d⟩, ⟨cs.drop d⟩)
    else (p, "")
  else (p, "")

/-- `os.path.basename`: everything after the last `/`. -/
def basename (p : String) : String :=
  match rfindIdx p.data '/' with
  | none => p
  | some i => ⟨p.data.drop (i + 1)⟩

/-- `os.path.join(a, b)` for the cases arising here (relative second
component unless absolute, in which case it wins). -/
def joinPath (a b : String) : String :=
  if startsWithStr "/" b then b
  else if a = "" then b
  else if a.endsWith "/" then a ++ b
  else a ++ "/" ++ b

/-- `"; ".join(...)` used for the submission-comment column. -/
def joinSemicolon : List String → String
  | [] => ""
  | [s] => s
  | s :: rest => s ++ "; " ++ joinSemicolon rest

/-! ### URL parser (`extract_url_parts`, source lines 52–68)

The source matches `re.match(r"(https?://[^/]+)/courses/(\d+)", url)`.
`re.match` anchors at the start and matches a prefix.  The regex is
deterministic: `[^/]+` is a maximal run of non-`/` characters (it can never
donate characters back, because the following literal starts with `/`), and
`https?` commits to consuming an `s` exactly when the next character is `s`
(backtracking can never help, since the following literal starts with `:`).
The embedding below follows that deterministic reading; `\d` is a Unicode
decimal digit (category `Nd`), which `int()` also parses digit by digit. -/

/-- Strip the literal `l` from the head of `cs`. -/
def chompLit : List Char → List Char → Option (List Char)
  | [], cs => some cs
  | _ :: _, [] => none
  | l :: ls, c :: cs => if c = l then chompLit ls cs else none

/-- The optional `s` of `https?`: consume it when present. -/
def schemeStep : List Char → Bool × List Char
  | [] => (false, [])
  | c :: rest => if c = 's' then (true, rest) else (false, c :: rest)

/-- Start code points of the 10-character decimal-digit blocks of Unicode
category `Nd` (Unicode 14.0, as in CPython 3.11's `unicodedata`).  Python's
`\d` on a `str` pattern matches exactly these characters, and every block is
a contiguous `0..9` run whose decimal value is the offset from the block
start. -/
def ndDigitStarts : List Nat :=
  [0x30, 0x660, 0x6F0, 0x7C0, 0x966, 0x9E6, 0xA66, 0xAE6, 0xB66, 0xBE6,
   0xC66, 0xCE6, 0xD66, 0xDE6, 0xE50, 0xED0, 0xF20, 0x1040, 0x1090, 0x17E0,
   0x1810, 0x1946, 0x19D0, 0x1A80, 0x1A90, 0x1B50, 0x1BB0, 0x1C40, 0x1C50,
   0xA620, 0xA8D0, 0xA900, 0xA9D0, 0xA9F0, 0xAA50, 0xABF0, 0xFF10, 0x104A0,
   0x10D30, 0x11066, 0x110F0, 0x11136, 0x111D0, 0x112F0, 0x11450, 0x114D0,
   0x11650, 0x116C0, 0x11730, 0x118E0, 0x11950, 0x11C50, 0x11D50, 0x11DA0,
   0x16A60, 0x16AC0, 0x16B50, 0x1D7CE, 0x1D7D8, 0x1D7E2, 0x1D7EC, 0x1D7F6,
   0x1E140, 0x1E2F0, 0x1E950, 0x1FBF0]

/-- The digit block a character belongs to, if any. -/
def ndBase (n : Nat) : Option Nat :=
  ndDigitStarts.find? (fun b => b ≤ n && n < b + 10)

/-- Python's `\d`: a Unicode decimal digit (category `Nd`). -/
def pyIsDigit (c : Char) : Bool := (ndBase c.toNat).isSome

/-- The decimal value of a Unicode decimal digit (offset in its block). -/
def pyDigitVal (c : Char) : Nat :=
  match ndBase c.toNat with
  | some b => c.toNat - b
  | none => 0

/-- `int(...)` on a run of `\d` digits: per-character decimal values in base
ten (Python's `int` accepts any mix of `Nd` digits). -/
def natOfDigits (ds : List Char) : Nat :=
  ds.foldl (fun acc c => acc * 10 + pyDigitVal c) 0

/-- Everything of the regex after the optional `s`: `://`, a nonempty host
without `/`, the literal `/courses/`, and a nonempty digit run. -/
def extractRest (secure : Bool) (r2 : List Char) : Option String × Option Nat :=
  match chompLit "://".data r2 with
  | none => (none, none)
  | some r3 =>
    let host := r3.takeWhile (fun c => c != '/')
    if host = [] then (none, none)
    else
      match chompLit "/courses/".data (r3.dropWhile (fun c => c != '/')) with
      | none => (none, none)
      | some r4 =>
        let digits := r4.takeWhile pyIsDigit
        if digits = [] then (none, none)
        else
          ((if secure then "https" else "http") ++ "://" ++ String.mk host ++ "/",
           natOfDigits digits)
          |> fun pr => (some pr.1, some pr.2)

/-- `extract_url_parts` (source lines 52–68): base URL with trailing slash
and integer course id, or `(None, None)`. -/
def extract_url_parts (course_url : String) : Option String × Option Nat :=
  match chompLit "http".data course_url.data with
  | none => (none, none)
  | some r1 =>
    let sr := schemeStep r1
    extractRest sr.1 sr.2

/-! ### Filesystem and image model for `convert_image` (source lines 9–48) -/

/-- A file on disk: an image that `Image.open` decodes (carrying its color
mode and encoded format), or a file on which `Image.open` raises `OSError`
(this includes `UnidentifiedImageError`). -/
inductive DiskFile
  | image (mode : String) (fmt : String)
  | notImage
deriving DecidableEq

/-- The filesystem: an association list from path to file. -/
abbrev FS := List (String × DiskFile)

/-- Look a path up in the filesystem. -/
def fsLookup (fs : FS) (p : String) : Option DiskFile :=
  match fs with
  | [] => none
  | (q, f) :: rest => if q = p then some f else fsLookup rest p

/-- Delete a path (`os.remove`; removing an absent path is never reached in
the modelled code paths). -/
def fsErase (fs : FS) (p : String) : FS :=
  fs.filter (fun e => e.1 != p)

/-- Write a file at a path (`img.save`), replacing any previous one. -/
def fsInsert (fs : FS) (p : String) (f : DiskFile) : FS :=
  (p, f) :: fsErase fs p

/-- Environment effects, recorded in order of occurrence. -/
inductive Ev
  | openImg (path : String)
  | loadHeifOpener
  | save (path : String)
  | remove (path : String)
  | request (url : String) (ps : List (String × String))
  | sleep (n : Nat)
deriving DecidableEq

/-- The save/remove tail of `convert_image` (source lines 35–45): normalize
and save in the requested format, then `os.remove` the original; an
unsupported format returns `None` before anything is written. -/
def convertSave (fs : FS) (mode : String) (image_path new_path output_format : String)
    (evs : List Ev) : Option String × FS × List Ev :=
  if lowerStr output_format = "jpg" then
    (some new_path,
     fsErase (fsInsert fs new_path (DiskFile.image "RGB" "JPEG")) image_path,
     evs ++ [Ev.save new_path, Ev.remove image_path])
  else if lowerStr output_format = "png" then
    (some new_path,
     fsErase (fsInsert fs new_path (DiskFile.image mode "PNG")) image_path,
     evs ++ [Ev.save new_path, Ev.remove image_path])
  else
    (none, fs, evs)

/-- `convert_image` (source lines 9–48).  `heifAvailable` models whether
`from pillow_heif import register_heif_opener` succeeds.  The result is the
returned path (`None` on failure), the filesystem afterwards, and the event
trace. -/
def convert_image (fs : FS) (heifAvailable : Bool) (image_path : String)
    (output_format : String) : Option String × FS × List Ev :=
  match fsLookup fs image_path with
  | none => (none, fs, [])
  | some DiskFile.notImage => (none, fs, [])
  | some (DiskFile.image mode _fmt) =>
    let be := splitext image_path
    let new_path := be.1 ++ ("." ++ lowerStr output_format)
    if lowerStr be.2 = ".heic" then
      if heifAvailable then
        convertSave fs mode image_path new_path output_format
          [Ev.openImg image_path, Ev.loadHeifOpener, Ev.openImg image_path]
      else
        (none, fs, [Ev.openImg image_path, Ev.loadHeifOpener])
    else
      convertSave fs mode image_path new_path output_format [Ev.openImg image_path]

/-! ### Submission pipeline (`download_submissions`, source lines 71–215) -/

/-- One attachment record of a submission.  `filename`/`url` are the values
of `attachment.get("filename")` / `attachment.get("url")` (`none` for a
missing key); `dlOk` models the environment: whether the
`requests.get(download_url, ...)` for this attachment succeeds
(`raise_for_status` not raising). -/
structure Attachment where
  filename : Option String
  url : Option String
  dlOk : Bool
deriving DecidableEq

/-- One submission record as the loop body reads it (source lines 139–153).
The `submitted_at` timestamp column is independent of every claim and is
carried raw. -/
structure Submission where
  studentName : String
  canvasId : String
  submittedAt : Option String
  comments : List String
  late : Bool
  grade : Option String
  excused : Bool
  attachments : List Attachment
deriving DecidableEq

/-- One manifest (CSV) row, source lines 184–188.  The date column is the
raw `submitted_at` value (the source renders it through `strptime`; the
rendering is irrelevant to the claims). -/
structure Row where
  studentName : String
  canvasId : String
  originalFilename : String
  renamedFilename : String
  submittedAt : Option String
  commentText : String
  late : Bool
  grade : Option String
  excused : Bool
deriving DecidableEq

/-- One HTTP response of the submissions endpoint, as the environment's
script supplies it: optional parsed `Retry-After` header, whether the status
is below 400 (`raise_for_status` does not raise), the parsed JSON body, and
the raw `Link` header. -/
structure Resp where
  retryAfter : Option Nat
  ok : Bool
  body : List Submission
  link : Option String
deriving DecidableEq

/-- How a run of the pagination loop ended: `finished` (page URL became
`None`), `fetchError` (`raise_for_status` raised, outer `except` broke the
loop), or `outOfScript` (the finite response script ran out while the loop
would have kept fetching — a model artifact, not a program outcome). -/
inductive RunEnd
  | finished
  | fetchError
  | outOfScript
deriving DecidableEq

/-- Result of a run: event trace, manifest rows in order, and how the loop
ended. -/
structure RunOut where
  events : List Ev
  rows : List Row
  ending : RunEnd
deriving DecidableEq

/-- The query parameters built at source lines 100–103 (requests expands the
list value of `include[]` into repeated parameters). -/
def canvasParams : List (String × String) :=
  [("include[]", "user"), ("include[]", "submission_comments"), ("per_page", "100")]

/-- The literal searched for in each Link-header entry (source line 203). -/
def relNext : List Char := "rel=\x22next\x22".data

/-- Scan the comma-separated Link-header entries for the first one that
splits on `;` into exactly two parts whose second part contains
`rel="next"`; return its first part stripped of `<> ` (source lines
200–205). -/
def findNext : List (List Char) → Option String
  | [] => none
  | link :: rest =>
    match splitOnChar ';' link with
    | [p0, p1] =>
      if hasSub relNext p1 then some ⟨stripAngles p0⟩ else findNext rest
    | _ => findNext rest

/-- The next-page URL the loop will actually fetch, combining the Link-header
parse (source lines 197–205) with the loop condition `while assignment_url:`
(source line 119).  An absent or falsy header means no next page; and when
the found entry's URL strips to the empty string, Python sets
`assignment_url = ''`, which is *falsy*, so the while loop exits just as if
no `rel="next"` entry existed — that truthiness is normalized to `none`
here, so a `some` next URL is always a nonempty, live page URL. -/
def parseNextLink : Option String → Option String
  | none => none
  | some l =>
    if l = "" then none
    else
      match findNext (splitOnChar ',' l.data) with
      | none => none
      | some u => if u = "" then none else some u

/-- `parseNextLink` never produces the empty string: the falsy cases are
normalized to `none`, matching `while assignment_url:`. -/
theorem parseNextLink_ne_empty (l : Option String) :
    parseNextLink l ≠ some "" := by
  cases l with
  | none => simp [parseNextLink]
  | some s =>
    simp only [parseNextLink]
    by_cases hs : s = ""
    · simp [hs]
    · rw [if_neg hs]
      cases h : findNext (splitOnChar ',' s.data) with
      | none => simp
      | some u =>
        by_cases hu : u = ""
        · simp [hu]
        · simp [hu]

/-- Python truthiness of an optional string (`not x` for `None` or `""`). -/
def falsyStr : Option String → Bool
  | none => true
  | some s => s == ""

/-- Is every field present and the download successful?  This is exactly the
condition under which the loop body reaches `csv_writer.writerow` (source
lines 159–188): missing filename or URL hits `continue`, a failed download
raises and is caught by the per-attachment handler. -/
def goodAttachment (a : Attachment) : Bool :=
  !falsyStr a.filename && !falsyStr a.url && a.dlOk

/-- The manifest row written for an attachment that reaches `writerow`
(source lines 163–188): renamed to `{canvas_id}_{filename}`, then possibly
renamed again when image conversion succeeds (`conv` is the environment's
answer for `convert_image(file_path, convert_to)`; on `None` the original
name is kept). -/
def attachmentRow (outputPath : String) (convert_to : Option String)
    (conv : String → Option String) (sub : Submission) (a : Attachment) : Row :=
  let original := a.filename.getD ""
  let renamed := sub.canvasId ++ "_" ++ original
  let path := joinPath outputPath renamed
  let renamed2 :=
    if falsyStr convert_to then renamed
    else
      match conv path with
      | some cp => basename cp
      | none => renamed
  { studentName := sub.studentName
    canvasId := sub.canvasId
    originalFilename := original
    renamedFilename := renamed2
    submittedAt := sub.submittedAt
    commentText := joinSemicolon sub.comments
    late := sub.late
    grade := sub.grade
    excused := sub.excused }

/-- One iteration of the attachment loop (source lines 154–194): skip on
missing metadata (`continue`), skip on download failure (exception caught),
otherwise produce the row. -/
def processAttachment (outputPath : String) (convert_to : Option String)
    (conv : String → Option String) (sub : Submission) (a : Attachment) :
    Option Row :=
  if falsyStr a.filename || falsyStr a.url then none
  else if !a.dlOk then none
  else some (attachmentRow outputPath convert_to conv sub a)

/-- All rows one submission contributes, in attachment order. -/
def processSubmission (outputPath : String) (convert_to : Option String)
    (conv : String → Option String) (sub : Submission) : List Row :=
  sub.attachments.filterMap (processAttachment outputPath convert_to conv sub)

/-- The pagination loop (source lines 119–213) over a finite response
script.  Each loop iteration issues `requests.get(assignment_url, headers,
params)` — note `params` is passed on every iteration.  A `Retry-After`
header sleeps and retries the same URL; a bad status breaks the loop; an ok
page contributes its rows and the next URL comes from the Link header.
The `while assignment_url:` truthiness test coincides with the `Option`
match here because in every reachable state a `some` URL is nonempty: the
initial endpoint URL is nonempty and `parseNextLink` normalizes an empty
extracted URL to `none` (see `parseNextLink_ne_empty`). -/
def fetchLoop (outputPath : String) (convert_to : Option String)
    (conv : String → Option String) : Option String → List Resp → RunOut
  | none, _ => ⟨[], [], RunEnd.finished⟩
  | some _, [] => ⟨[], [], RunEnd.outOfScript⟩
  | some url, r :: rest =>
    match r.retryAfter with
    | some n =>
      let out := fetchLoop outputPath convert_to conv (some url) rest
      ⟨Ev.request url canvasParams :: Ev.sleep n :: out.events, out.rows, out.ending⟩
    | none =>
      if r.ok then
        let pageRows := r.body.flatMap (processSubmission outputPath convert_to conv)
        let out := fetchLoop outputPath convert_to conv (parseNextLink r.link) rest
        ⟨Ev.request url canvasParams :: out.events, pageRows ++ out.rows, out.ending⟩
      else
        ⟨[Ev.request url canvasParams], [], RunEnd.fetchError⟩

/-- A dynamically typed Python value for the id arguments of
`download_submissions` (they are ints when called from `main`, but the
function validates them dynamically). -/
inductive PyVal
  | pyNone
  | pyInt (n : Int)
  | pyStr (s : String)
deriving DecidableEq

/-- Python truthiness of an id argument. -/
def truthyPy : PyVal → Bool
  | PyVal.pyNone => false
  | PyVal.pyInt n => !(n == 0)
  | PyVal.pyStr s => !(s == "")

/-- `isinstance(x, int)`. -/
def isIntPy : PyVal → Bool
  | PyVal.pyInt _ => true
  | _ => false

/-- Does the validation block at source lines 87–95 raise `ValueError`?
In source order: any of the four arguments falsy; base URL not starting
with `https://`; course id not an int; assignment id not an int. -/
def validationError (api_key base_url : Option String)
    (course_id assignment_id : PyVal) : Bool :=
  !(!falsyStr api_key) || !(!falsyStr base_url)
  || !truthyPy course_id || !truthyPy assignment_id
  || !startsWithStr "https://" (base_url.getD "")
  || !isIntPy course_id || !isIntPy assignment_id

/-- `download_submissions` (source lines 71–215) over a response script:
validation first (raising `ValueError` before any request), then the
assignment endpoint URL is built and the pagination loop runs. -/
def download_submissions (api_key base_url : Option String)
    (course_id assignment_id : PyVal) (output_path : String)
    (convert_to : Option String) (conv : String → Option String)
    (script : List Resp) : Except String RunOut :=
  if validationError api_key base_url course_id assignment_id then
    Except.error "ValueError"
  else
    let bu := base_url.getD ""
    let cid : Int := match course_id with | PyVal.pyInt n => n | _ => 0
    let aid : Int := match assignment_id with | PyVal.pyInt n => n | _ => 0
    let assignment_url :=
      bu ++ "api/v1/courses/" ++ toString cid ++ "/assignments/" ++ toString aid
         ++ "/submissions"
    Except.ok (fetchLoop output_path convert_to conv (some assignment_url) script)

/-! ### Shared lemmas about the pagination loop -/

theorem fetchLoop_none (op : String) (ct : Option String)
    (conv : String → Option String) (script : List Resp) :
    fetchLoop op ct conv none script = ⟨[], [], RunEnd.finished⟩ := by
  cases script <;> rfl

theorem fetchLoop_nil (op : String) (ct : Option String)
    (conv : String → Option String) (url : String) :
    fetchLoop op ct conv (some url) [] = ⟨[], [], RunEnd.outOfScript⟩ := rfl

theorem fetchLoop_retry (op : String) (ct : Option String)
    (conv : String → Option String) (url : String) (r : Resp) (rest : List Resp)
    (n : Nat) (h : r.retryAfter = some n) :
    fetchLoop op ct conv (some url) (r :: rest)
      = ⟨Ev.request url canvasParams :: Ev.sleep n
           :: (fetchLoop op ct conv (some url) rest).events,
         (fetchLoop op ct conv (some url) rest).rows,
         (fetchLoop op ct conv (some url) rest).ending⟩ := by
  simp only [fetchLoop, h]

theorem fetchLoop_ok (op : String) (ct : Option String)
    (conv : String → Option String) (url : String) (r : Resp) (rest : List Resp)
    (h1 : r.retryAfter = none) (h2 : r.ok = true) :
    fetchLoop op ct conv (some url) (r :: rest)
      = ⟨Ev.request url canvasParams
           :: (fetchLoop op ct conv (parseNextLink r.link) rest).events,
         r.body.flatMap (processSubmission op ct conv)
           ++ (fetchLoop op ct conv (parseNextLink r.link) rest).rows,
         (fetchLoop op ct conv (parseNextLink r.link) rest).ending⟩ := by
  simp only [fetchLoop, h1, h2, if_true]

theorem fetchLoop_err (op : String) (ct : Option String)
    (conv : String → Option String) (url : String) (r : Resp) (rest : List Resp)
    (h1 : r.retryAfter = none) (h2 : r.ok = false) :
    fetchLoop op ct conv (some url) (r :: rest)
      = ⟨[Ev.request url canvasParams], [], RunEnd.fetchError⟩ := by
  simp only [fetchLoop, h1, h2]
  rfl

/-- Whatever the response, an iteration that has a page URL and a scripted
response always begins by requesting that URL with the constant params. -/
theorem fetchLoop_cons_head (op : String) (ct : Option String)
    (conv : String → Option String) (url : String) (r : Resp) (rest : List Resp) :
    ∃ tl, (fetchLoop op ct conv (some url) (r :: rest)).events
      = Ev.request url canvasParams :: tl := by
  cases h : r.retryAfter with
  | some n => exact ⟨_, by rw [fetchLoop_retry op ct conv url r rest n h]⟩
  | none =>
    cases h2 : r.ok with
    | true => exact ⟨_, by rw [fetchLoop_ok op ct conv url r rest h h2]⟩
    | false => exact ⟨_, by rw [fetchLoop_err op ct conv url r rest h h2]⟩

theorem processAttachment_eq (op : String) (ct : Option String)
    (conv : String → Option String) (sub : Submission) (a : Attachment) :
    processAttachment op ct conv sub a
      = if goodAttachment a then some (attachmentRow op ct conv sub a) else none := by
  cases hf : falsyStr a.filename <;> cases hu : falsyStr a.url <;>
    cases hd : a.dlOk <;>
      simp [processAttachment, goodAttachment, hf, hu, hd]

theorem filterMap_guard {α β : Type} (p : α → Bool) (f : α → β) (l : List α) :
    (l.filterMap fun a => if p a then some (f a) else none)
      = (l.filter p).map f := by
  induction l with
  | nil => rfl
  | cons a l ih =>
    by_cases h : p a <;> simp [List.filterMap_cons, List.filter_cons, h, ih]

/-- C1: every successfully downloaded attachment produces exactly one
manifest row — the rows of a submission are exactly the map of the row
builder over the attachments whose metadata is present and whose download
succeeds, in order; an attachment missing a filename or URL contributes no
row while good siblings still contribute theirs; a submission with zero
attachments produces zero rows. -/
theorem c1_manifest_rows :
    (∀ (op : String) (ct : Option String) (conv : String → Option String)
        (sub : Submission),
        processSubmission op ct conv sub
          = (sub.attachments.filter goodAttachment).map (attachmentRow op ct conv sub))
    ∧ (∀ (op : String) (ct : Option String) (conv : String → Option String)
        (sub : Submission) (a : Attachment),
        a ∈ sub.attachments → goodAttachment a = true →
        attachmentRow op ct conv sub a ∈ processSubmission op ct conv sub)
    ∧ (∀ (op : String) (ct : Option String) (conv : String → Option String)
        (sub : Submission),
        sub.attachments = [] → processSubmission op ct conv sub = []) := by
  have key : ∀ (op : String) (ct : Option String) (conv : String → Option String)
      (sub : Submission),
      processSubmission op ct conv sub
        = (sub.attachments.filter goodAttachment).map (attachmentRow op ct conv sub) := by
    intro op ct conv sub
    unfold processSubmission
    rw [show processAttachment op ct conv sub
          = fun a => if goodAttachment a then some (attachmentRow op ct conv sub a) else none
        from funext fun a => processAttachment_eq op ct conv sub a]
    exact filterMap_guard _ _ _
  refine ⟨key, ?_, ?_⟩
  · intro op ct conv sub a ha hg
    rw [key]
    exact List.mem_map_of_mem _ (List.mem_filter.mpr ⟨ha, hg⟩)
  · intro op ct conv sub h
    simp [processSubmission, h]

/-- Concrete instance of C1: a submission whose first attachment lacks a
filename still yields the row of its good sibling, and a submission with no
attachments yields no rows. -/
theorem c1_manifest_rows_witness :
    attachmentRow "out" none (fun _ => none)
        ⟨"Ada", "7", none, [], false, none, false,
          [⟨none, some "https://files.example.com/0", true⟩,
           ⟨some "hw.pdf", some "https://files.example.com/1", true⟩]⟩
        ⟨some "hw.pdf", some "https://files.example.com/1", true⟩
      ∈ processSubmission "out" none (fun _ => none)
        ⟨"Ada", "7", none, [], false, none, false,
          [⟨none, some "https://files.example.com/0", true⟩,
           ⟨some "hw.pdf", some "https://files.example.com/1", true⟩]⟩
    ∧ processSubmission "out" none (fun _ => none)
        ⟨"Bob", "8", none, [], false, none, false, []⟩ = [] :=
  ⟨c1_manifest_rows.2.1 "out" none (fun _ => none) _ _ (by decide) (by decide),
   c1_manifest_rows.2.2 "out" none (fun _ => none) _ rfl⟩

/-- C5: on a response carrying `Retry-After: n` the loop sleeps `n` and
retries: the events are the request, then the sleep, then the continuation
at the *same* URL; the response contributes no rows; and if the script goes
on, the next request is identical (same URL, same params). -/
theorem c5_rate_limit :
    ∀ (op : String) (ct : Option String) (conv : String → Option String)
      (url : String) (n : Nat) (r : Resp) (rest : List Resp),
      r.retryAfter = some n →
      (fetchLoop op ct conv (some url) (r :: rest)).events
          = Ev.request url canvasParams :: Ev.sleep n
              :: (fetchLoop op ct conv (some url) rest).events
      ∧ (fetchLoop op ct conv (some url) (r :: rest)).rows
          = (fetchLoop op ct conv (some url) rest).rows
      ∧ (∀ (r' : Resp) (rest' : List Resp), rest = r' :: rest' →
          ∃ tl, (fetchLoop op ct conv (some url) rest).events
            = Ev.request url canvasParams :: tl) := by
  intro op ct conv url n r rest h
  rw [fetchLoop_retry op ct conv url r rest n h]
  refine ⟨rfl, rfl, ?_⟩
  intro r' rest' he
  rw [he]
  exact fetchLoop_cons_head op ct conv url r' rest'

/-- Concrete instance of C5: a `Retry-After: 30` response produces a request,
a **30**-unit sleep, and a retry of the same request. -/
theorem c5_rate_limit_witness :
    (fetchLoop "out" none (fun _ => none) (some "https://u")
        (⟨some 30, true, [], none⟩ :: [⟨none, true, [], none⟩])).events
      = Ev.request "https://u" canvasParams :: Ev.sleep 30
          :: (fetchLoop "out" none (fun _ => none) (some "https://u")
                [⟨none, true, [], none⟩]).events :=
  (c5_rate_limit "out" none (fun _ => none) "https://u" 30
      ⟨some 30, true, [], none⟩ [⟨none, true, [], none⟩] rfl).1

/-- C3 fails on the code: `requests.get(assignment_url, headers=headers,
params=params)` at source line 122 passes `params` on *every* iteration, so
the second fetch — whose URL came from the Link header — still carries the
`include[]`/`per_page` query parameters.  This closed computation exhibits
it: the second request event carries `canvasParams`, which is nonempty. -/
theorem c3_params_counterexample :
    (fetchLoop "out" none (fun _ => none)
        (some "https://c.example.com/api/v1/courses/1/assignments/2/submissions")
        [⟨none, true, [], some "<https://c.example.com/page2>; rel=\x22next\x22"⟩,
         ⟨none, true, [], none⟩]).events
      = [Ev.request "https://c.example.com/api/v1/courses/1/assignments/2/submissions"
           canvasParams,
         Ev.request "https://c.example.com/page2" canvasParams]
    ∧ canvasParams ≠ [] := by decide

/-- C3 amended: the fetcher's state is only the current page URL, but the
`include[]` and `per_page` query parameters are client-supplied on *every*
request, including the requests for subsequent pages obtained from the link
header: every request event of any run carries exactly `canvasParams`. -/
theorem c3_params_amended :
    ∀ (op : String) (ct : Option String) (conv : String → Option String)
      (u : Option String) (script : List Resp) (url : String)
      (ps : List (String × String)),
      Ev.request url ps ∈ (fetchLoop op ct conv u script).events →
      ps = canvasParams := by
  intro op ct conv u script
  induction script generalizing u with
  | nil =>
    intro url ps h
    cases u with
    | none => rw [fetchLoop_none] at h; simp at h
    | some u0 => rw [fetchLoop_nil] at h; simp at h
  | cons r rest ih =>
    intro url ps h
    cases u with
    | none => rw [fetchLoop_none] at h; simp at h
    | some url0 =>
      cases hra : r.retryAfter with
      | some n =>
        rw [fetchLoop_retry op ct conv url0 r rest n hra] at h
        simp only [List.mem_cons] at h
        rcases h with h | h | h
        · cases h; rfl
        · cases h
        · exact ih (some url0) url ps (by simpa using h)
      | none =>
        cases hok : r.ok with
        | true =>
          rw [fetchLoop_ok op ct conv url0 r rest hra hok] at h
          simp only [List.mem_cons] at h
          rcases h with h | h
          · cases h; rfl
          · exact ih (parseNextLink r.link) url ps (by simpa using h)
        | false =>
          rw [fetchLoop_err op ct conv url0 r rest hra hok] at h
          simp only [List.mem_cons] at h
          rcases h with h | h
          · cases h; rfl
          · simp at h

/-- Concrete instance of the amended C3, discharging the membership
hypothesis on a one-page run. -/
theorem c3_params_amended_witness :
    ([("include[]", "user"), ("include[]", "submission_comments"),
      ("per_page", "100")] : List (String × String)) = canvasParams :=
  c3_params_amended "out" none (fun _ => none) (some "https://u")
    [⟨none, true, [], none⟩] "https://u"
    [("include[]", "user"), ("include[]", "submission_comments"),
     ("per_page", "100")]
    (by decide)

/-- Is an event a page fetch? -/
def isRequestEv : Ev → Bool
  | Ev.request _ _ => true
  | _ => false

/-- Number of fetches in a trace. -/
def fetchCount (evs : List Ev) : Nat := (evs.filter isRequestEv).length

/-- The fixed three-page script of C4: the first two responses point to a
next page, the third has a link header with no `rel="next"` entry. -/
def script3 : List Resp :=
  [⟨none, true, [], some "<https://c.example.com/p2>; rel=\x22next\x22"⟩,
   ⟨none, true, [], some "<https://c.example.com/p3>; rel=\x22next\x22"⟩,
   ⟨none, true, [], some "<https://c.example.com/p1>; rel=\x22first\x22"⟩]

/-- C4 fails on the code: the Link header `<>; rel="next"` *does* contain an
entry whose relation attribute equals `next` — the scan finds it, as the
first conjunct shows — but its URL strips to the empty string, so
`assignment_url` becomes `''`, which is falsy, and `while assignment_url:`
exits: exactly one fetch occurs and the run finishes despite the
`rel="next"` entry. -/
theorem c4_pagination_counterexample :
    findNext (splitOnChar ',' "<>; rel=\x22next\x22".data) = some ""
    ∧ (fetchLoop "out" none (fun _ => none) (some "https://u")
        [⟨none, true, [], some "<>; rel=\x22next\x22"⟩]).events
        = [Ev.request "https://u" canvasParams]
    ∧ (fetchLoop "out" none (fun _ => none) (some "https://u")
        [⟨none, true, [], some "<>; rel=\x22next\x22"⟩]).ending
        = RunEnd.finished := by
  decide

/-- C4 amended: pagination terminates exactly when the response yields no
next-page URL — its link header has no entry whose relation attribute is
`next`, or the first such entry's URL strips to the empty string, which is
falsy for `while assignment_url:` (both cases are `parseNextLink … = none`).
After an ok, non-rate-limited response, the loop stops (this fetch is the
last event and the run finishes) iff `parseNextLink` yields nothing; and on
the fixed three-page script, exactly three fetches occur and the run
finishes. -/
theorem c4_pagination :
    (∀ (op : String) (ct : Option String) (conv : String → Option String)
        (url : String) (r : Resp) (rest : List Resp),
        r.retryAfter = none → r.ok = true →
        (((fetchLoop op ct conv (some url) (r :: rest)).events
             = [Ev.request url canvasParams]
          ∧ (fetchLoop op ct conv (some url) (r :: rest)).ending = RunEnd.finished)
         ↔ parseNextLink r.link = none))
    ∧ fetchCount (fetchLoop "out" none (fun _ => none)
        (some "https://c.example.com/p1") script3).events = 3
    ∧ (fetchLoop "out" none (fun _ => none)
        (some "https://c.example.com/p1") script3).ending = RunEnd.finished := by
  refine ⟨?_, by decide, by decide⟩
  intro op ct conv url r rest h1 h2
  rw [fetchLoop_ok op ct conv url r rest h1 h2]
  constructor
  · rintro ⟨hev, hend⟩
    cases hl : parseNextLink r.link with
    | none => rfl
    | some u' =>
      rw [hl] at hev hend
      cases rest with
      | nil =>
        rw [fetchLoop_nil] at hend
        simp at hend
      | cons r' rest' =>
        obtain ⟨tl, htl⟩ := fetchLoop_cons_head op ct conv u' r' rest'
        rw [htl] at hev
        simp at hev
  · intro hl
    rw [hl, fetchLoop_none]
    exact ⟨rfl, rfl⟩

/-- Concrete instance of C4's characterization: a single page whose link
header is absent is fetched once and the loop finishes. -/
theorem c4_pagination_witness :
    (fetchLoop "out" none (fun _ => none) (some "https://u")
        [⟨none, true, [], none⟩]).events = [Ev.request "https://u" canvasParams]
    ∧ (fetchLoop "out" none (fun _ => none) (some "https://u")
        [⟨none, true, [], none⟩]).ending = RunEnd.finished :=
  (c4_pagination.1 "out" none (fun _ => none) "https://u"
      ⟨none, true, [], none⟩ [] rfl rfl).mpr rfl

/-- Modelled from the claim's words (C8): an identifying string is "absent"
when it is unset or empty. -/
def specAbsentStr : Option String → Bool
  | none => true
  | some s => s == ""

/-- Modelled from the claim's words (C8): an id is "absent or not an
integer". -/
def specIdBad : PyVal → Bool
  | PyVal.pyNone => true
  | PyVal.pyInt _ => false
  | PyVal.pyStr _ => true

/-- The raise condition exactly as claim C8 states it: credential absent,
base address absent or not beginning with the secure scheme, or course id or
assignment id absent or not an integer. -/
def c8SpecCond (k u : Option String) (c a : PyVal) : Bool :=
  specAbsentStr k || specAbsentStr u
  || !startsWithStr "https://" (u.getD "")
  || specIdBad c || specIdBad a

/-- Is the value the integer zero (falsy in Python although present and an
integer)? -/
def pyIsZero : PyVal → Bool
  | PyVal.pyInt n => n == 0
  | _ => false

/-- The corrected raise condition: the claim's condition, or an id equal to
the integer zero. -/
def c8AmendedCond (k u : Option String) (c a : PyVal) : Bool :=
  c8SpecCond k u c a || pyIsZero c || pyIsZero a

/-- C8 fails on the code: with course id `0` — present and an integer, so
the claim says no error — the validation block still raises, because
`not course_id` is true for the falsy integer `0`. -/
theorem c8_validation_counterexample :
    validationError (some "k") (some "https://c.example.com/")
        (PyVal.pyInt 0) (PyVal.pyInt 1) = true
    ∧ c8SpecCond (some "k") (some "https://c.example.com/")
        (PyVal.pyInt 0) (PyVal.pyInt 1) = false := by decide

/-- C8 amended: `download_submissions` raises the configuration error, before
issuing any network request, if and only if the credential is absent, the
base address is absent or does not begin with `https://`, or the course id or
assignment id is absent, not an integer, **or the integer zero**; and whenever
the condition holds the run is the error alone — no request is issued. -/
theorem c8_validation_amended :
    (∀ (k u : Option String) (c a : PyVal),
        validationError k u c a = true ↔ c8AmendedCond k u c a = true)
    ∧ (∀ (k u : Option String) (c a : PyVal) (op : String) (ct : Option String)
        (conv : String → Option String) (script : List Resp),
        validationError k u c a = true →
        download_submissions k u c a op ct conv script
          = Except.error "ValueError") := by
  constructor
  · intro k u c a
    cases k <;> cases u <;> cases c <;> cases a <;>
      simp [validationError, c8AmendedCond, c8SpecCond, specAbsentStr,
        specIdBad, pyIsZero, truthyPy, falsyStr, isIntPy]
    all_goals tauto
  · intro k u c a op ct conv script h
    simp [download_submissions, h]

/-- Concrete instance of the amended C8: with everything absent the run is
the configuration error (and, in particular, produces no request trace). -/
theorem c8_validation_amended_witness :
    download_submissions none none PyVal.pyNone PyVal.pyNone "out" none
        (fun _ => none) [] = Except.error "ValueError" :=
  c8_validation_amended.2 none none PyVal.pyNone PyVal.pyNone "out" none
    (fun _ => none) [] (by decide)

/-! ### Shared lemmas about the filesystem model and `convert_image` -/

theorem fsLookup_erase_self (fs : FS) (p : String) :
    fsLookup (fsErase fs p) p = none := by
  induction fs with
  | nil => rfl
  | cons e fs ih =>
    obtain ⟨q, f⟩ := e
    by_cases h : q = p
    · simpa [fsErase, List.filter_cons, h] using ih
    · simpa [fsErase, List.filter_cons, h, fsLookup] using ih

theorem fsLookup_erase_ne (fs : FS) (p q : String) (h : q ≠ p) :
    fsLookup (fsErase fs p) q = fsLookup fs q := by
  induction fs with
  | nil => rfl
  | cons e fs ih =>
    obtain ⟨x, f⟩ := e
    simp only [fsErase] at ih ⊢
    rw [List.filter_cons]
    by_cases hx : x = p
    · have hxq : x ≠ q := fun hq => h (hq ▸ hx)
      rw [if_neg (by simp [hx]), ih]
      simp [fsLookup, hxq]
    · rw [if_pos (by simp [hx])]
      simp only [fsLookup]
      by_cases hq : x = q
      · rw [if_pos hq, if_pos hq]
      · rw [if_neg hq, if_neg hq, ih]

theorem fsLookup_insert_self (fs : FS) (p : String) (f : DiskFile) :
    fsLookup (fsInsert fs p f) p = some f := by
  simp [fsInsert, fsLookup]

/-- Splitting off the extension and putting it back is the identity. -/
theorem splitext_recomb (p : String) : (splitext p).1 ++ (splitext p).2 = p := by
  have hmk : ∀ a b : List Char, ((⟨a⟩ : String) ++ (⟨b⟩ : String)) = (⟨a ++ b⟩ : String) :=
    fun a b => rfl
  have hnil : p ++ "" = p := by
    cases p with
    | mk cs => rw [show ("" : String) = (⟨[]⟩ : String) from rfl, hmk]; simp
  unfold splitext
  dsimp only
  split
  · split
    · rw [hmk]
      cases p with
      | mk cs => simp
    · exact hnil
  · exact hnil

/-- The trace of `convertSave` extends the trace accumulated so far. -/
theorem convertSave_trace (fs : FS) (mode image_path new_path ofmt : String)
    (evs : List Ev) :
    ∃ tl, (convertSave fs mode image_path new_path ofmt evs).2.2 = evs ++ tl := by
  unfold convertSave
  split
  · exact ⟨_, rfl⟩
  · split
    · exact ⟨_, rfl⟩
    · exact ⟨[], by simp⟩

/-- Shape of a successful `jpg` conversion: the destination is the source
with its extension replaced by `.jpg`, the filesystem first gains the RGB
JPEG at the destination and then loses the source, and the trace ends with
the save followed by the removal. -/
theorem convert_image_jpg (fs : FS) (heif : Bool) (p m f : String)
    (hopen : fsLookup fs p = some (DiskFile.image m f))
    (hheic : lowerStr (splitext p).2 = ".heic" → heif = true) :
    ∃ evs, convert_image fs heif p "jpg"
      = (some ((splitext p).1 ++ ".jpg"),
         fsErase (fsInsert fs ((splitext p).1 ++ ".jpg")
           (DiskFile.image "RGB" "JPEG")) p,
         evs ++ [Ev.save ((splitext p).1 ++ ".jpg"), Ev.remove p]) := by
  have hnp : "." ++ lowerStr "jpg" = ".jpg" := by decide
  have hjpg : lowerStr "jpg" = "jpg" := by decide
  unfold convert_image
  rw [hopen]
  simp only [hnp]
  by_cases hh : lowerStr (splitext p).2 = ".heic"
  · rw [if_pos hh, hheic hh]
    simp only [if_pos rfl]
    exact ⟨[Ev.openImg p, Ev.loadHeifOpener, Ev.openImg p],
      by simp [convertSave, hjpg]⟩
  · rw [if_neg hh]
    exact ⟨[Ev.openImg p], by simp [convertSave, hjpg]⟩

/-- C2: for every existing, openable source file (with the optional decoder
present when the source is `.heic` — otherwise even the open fails),
converting to `"jpg"` returns the destination path (source with extension
replaced by `.jpg`); the trace ends with the save of the destination
followed by the removal of the source, so the source is removed only after
the destination is written; the written destination (when distinct from the
source) is an RGB JPEG; the source is gone afterwards.  If opening the
source fails the result is `None`, the filesystem is untouched and nothing
happens. -/
theorem c2_convert_jpg :
    (∀ (fs : FS) (heif : Bool) (p m f : String),
        fsLookup fs p = some (DiskFile.image m f) →
        (lowerStr (splitext p).2 = ".heic" → heif = true) →
        (convert_image fs heif p "jpg").1 = some ((splitext p).1 ++ ".jpg")
        ∧ (∃ pre, (convert_image fs heif p "jpg").2.2
            = pre ++ [Ev.save ((splitext p).1 ++ ".jpg"), Ev.remove p])
        ∧ ((splitext p).1 ++ ".jpg" ≠ p →
            fsLookup (convert_image fs heif p "jpg").2.1 ((splitext p).1 ++ ".jpg")
              = some (DiskFile.image "RGB" "JPEG"))
        ∧ fsLookup (convert_image fs heif p "jpg").2.1 p = none)
    ∧ (∀ (fs : FS) (heif : Bool) (p : String),
        fsLookup fs p = none ∨ fsLookup fs p = some DiskFile.notImage →
        convert_image fs heif p "jpg" = (none, fs, [])) := by
  constructor
  · intro fs heif p m f hopen hheic
    obtain ⟨evs, heq⟩ := convert_image_jpg fs heif p m f hopen hheic
    rw [heq]
    refine ⟨rfl, ⟨evs, rfl⟩, ?_, ?_⟩
    · intro hne
      exact (fsLookup_erase_ne _ _ _ hne).trans (fsLookup_insert_self _ _ _)
    · exact fsLookup_erase_self _ _
  · intro fs heif p h
    unfold convert_image
    rcases h with h | h <;> rw [h]

/-- Concrete instance of C2: converting `a.png` to jpg yields `a.jpg`,
removes `a.png`, and writes an RGB JPEG at `a.jpg`. -/
theorem c2_convert_jpg_witness :
    (convert_image [("a.png", DiskFile.image "RGBA" "PNG")] false "a.png" "jpg").1
        = some "a.jpg"
    ∧ fsLookup (convert_image [("a.png", DiskFile.image "RGBA" "PNG")]
        false "a.png" "jpg").2.1 "a.png" = none
    ∧ fsLookup (convert_image [("a.png", DiskFile.image "RGBA" "PNG")]
        false "a.png" "jpg").2.1 "a.jpg" = some (DiskFile.image "RGB" "JPEG") :=
  have h := c2_convert_jpg.1 [("a.png", DiskFile.image "RGBA" "PNG")] false
    "a.png" "RGBA" "PNG" (by decide) (by decide)
  ⟨h.1.trans (by decide), h.2.2.2,
   ((by decide : ((splitext "a.png").1 ++ ".jpg" : String) = "a.jpg") ▸
      h.2.2.1 (by decide))⟩

/-- C6: for an openable file whose extension (lowercased) is `.heic`, the
converter opens the file and attempts to load the optional decoder; when
the decoder is unavailable it aborts — result `None`, filesystem untouched,
trace exactly the open and the load attempt; when it is available it
re-opens the file before proceeding. -/
theorem c6_heic :
    (∀ (fs : FS) (p m f ofmt : String),
        fsLookup fs p = some (DiskFile.image m f) →
        lowerStr (splitext p).2 = ".heic" →
        convert_image fs false p ofmt = (none, fs, [Ev.openImg p, Ev.loadHeifOpener]))
    ∧ (∀ (fs : FS) (p m f ofmt : String),
        fsLookup fs p = some (DiskFile.image m f) →
        lowerStr (splitext p).2 = ".heic" →
        ∃ tl, (convert_image fs true p ofmt).2.2
          = [Ev.openImg p, Ev.loadHeifOpener, Ev.openImg p] ++ tl) := by
  constructor
  · intro fs p m f ofmt hopen hh
    unfold convert_image
    rw [hopen]
    simp only [hh, if_pos rfl]
    rfl
  · intro fs p m f ofmt hopen hh
    unfold convert_image
    rw [hopen]
    simp only [hh, if_pos rfl]
    exact convertSave_trace _ _ _ _ _ _

/-- Concrete instance of C6: a `.heic` file with the decoder unavailable is
left untouched and the conversion reports failure. -/
theorem c6_heic_witness :
    convert_image [("a.heic", DiskFile.image "RGB" "HEIF")] false "a.heic" "jpg"
      = (none, [("a.heic", DiskFile.image "RGB" "HEIF")],
         [Ev.openImg "a.heic", Ev.loadHeifOpener]) :=
  c6_heic.1 [("a.heic", DiskFile.image "RGB" "HEIF")] "a.heic" "RGB" "HEIF"
    "jpg" (by decide) (by decide)

/-- C9 fails on the code: for `x.JPG` the lowercased extension equals the
target format, yet the computed destination is `x.jpg` — *not* the source
path — so the original `x.JPG` is removed, the converted file survives at
`x.jpg`, and the returned path does hold a file. -/
theorem c9_same_path_counterexample :
    lowerStr (splitext "x.JPG").2 = ".jpg"
    ∧ (convert_image [("x.JPG", DiskFile.image "L" "PNG")] false "x.JPG" "jpg").1
        = some "x.jpg"
    ∧ ("x.jpg" : String) ≠ "x.JPG"
    ∧ fsLookup (convert_image [("x.JPG", DiskFile.image "L" "PNG")]
        false "x.JPG" "jpg").2.1 "x.jpg" = some (DiskFile.image "RGB" "JPEG") := by
  decide

/-- C9 amended: the destination collides with the source exactly when the
extension equals `.jpg` *verbatim* (the destination is built from the
lowercased target format, not the lowercased extension).  In that case the
final removal deletes the freshly written converted file and the function
returns a path at which no file exists. -/
theorem c9_same_path_amended :
    ∀ (fs : FS) (heif : Bool) (p m f : String),
      fsLookup fs p = some (DiskFile.image m f) →
      (splitext p).2 = ".jpg" →
      (convert_image fs heif p "jpg").1 = some p
      ∧ fsLookup (convert_image fs heif p "jpg").2.1 p = none := by
  intro fs heif p m f hopen hext
  have hnp : (splitext p).1 ++ ".jpg" = p := by
    rw [← hext]; exact splitext_recomb p
  have hh : lowerStr (splitext p).2 = ".heic" → heif = true := by
    rw [hext]; intro h; exact absurd h (by decide)
  obtain ⟨evs, heq⟩ := convert_image_jpg fs heif p m f hopen hh
  rw [heq]
  exact ⟨by rw [hnp], fsLookup_erase_self _ _⟩

/-- Concrete instance of the amended C9: converting `x.jpg` to jpg returns
`x.jpg`, but no file exists there afterwards. -/
theorem c9_same_path_amended_witness :
    (convert_image [("x.jpg", DiskFile.image "L" "PNG")] false "x.jpg" "jpg").1
        = some "x.jpg"
    ∧ fsLookup (convert_image [("x.jpg", DiskFile.image "L" "PNG")]
        false "x.jpg" "jpg").2.1 "x.jpg" = none :=
  c9_same_path_amended [("x.jpg", DiskFile.image "L" "PNG")] false "x.jpg"
    "L" "PNG" (by decide) (by decide)

/-! ### Shared lemmas about the URL parser -/

theorem chompLit_self_append (l r : List Char) : chompLit l (l ++ r) = some r := by
  induction l with
  | nil => rfl
  | cons a as ih => simp [chompLit, ih]

theorem chompLit_some {l cs r : List Char} (h : chompLit l cs = some r) :
    cs = l ++ r := by
  induction l generalizing cs with
  | nil =>
    simp only [chompLit, Option.some.injEq] at h
    simp [h]
  | cons a as ih =>
    cases cs with
    | nil => simp [chompLit] at h
    | cons c cs' =>
      by_cases hc : c = a
      · subst hc
        simp only [chompLit, if_pos rfl] at h
        rw [List.cons_append, ih h]
      · simp [chompLit, hc] at h

theorem takeWhile_all {p : Char → Bool} {l : List Char}
    (h : ∀ a ∈ l, p a = true) : l.takeWhile p = l := by
  induction l with
  | nil => rfl
  | cons a l ih =>
    rw [List.takeWhile_cons, if_pos (h a (List.mem_cons_self a l))]
    rw [ih fun b hb => h b (List.mem_cons_of_mem a hb)]

theorem takeWhile_append_stop {p : Char → Bool} {l : List Char}
    (h : ∀ a ∈ l, p a = true) {c : Char} (hc : p c = false) (r : List Char) :
    (l ++ c :: r).takeWhile p = l := by
  induction l with
  | nil => simp [List.takeWhile_cons, hc]
  | cons a l ih =>
    rw [List.cons_append, List.takeWhile_cons,
      if_pos (h a (List.mem_cons_self a l))]
    rw [ih fun b hb => h b (List.mem_cons_of_mem a hb)]

theorem dropWhile_append_stop {p : Char → Bool} {l : List Char}
    (h : ∀ a ∈ l, p a = true) {c : Char} (hc : p c = false) (r : List Char) :
    (l ++ c :: r).dropWhile p = c :: r := by
  induction l with
  | nil => simp [List.dropWhile_cons, hc]
  | cons a l ih =>
    rw [List.cons_append, List.dropWhile_cons,
      if_pos (h a (List.mem_cons_self a l))]
    exact ih fun b hb => h b (List.mem_cons_of_mem a hb)

theorem mem_takeWhile {p : Char → Bool} {l : List Char} {a : Char}
    (h : a ∈ l.takeWhile p) : p a = true := by
  induction l with
  | nil => simp [List.takeWhile] at h
  | cons b l ih =>
    rw [List.takeWhile_cons] at h
    by_cases hb : p b = true
    · rw [if_pos hb] at h
      rcases List.mem_cons.mp h with h | h
      · rwa [h]
      · exact ih h
    · rw [if_neg hb] at h
      simp at h

/-- The scheme string selected by the optional `s` of `https?`. -/
def schemeStr (secure : Bool) : String := if secure then "https" else "http"

/-- The spec's pattern `scheme://host/courses/{digits}` read as `re.match`
reads it: a *prefix* of the string consisting of `http` or `https`, `://`, a
nonempty host without `/`, the literal `/courses/`, and a nonempty digit
run; anything may follow. -/
def MatchesPattern (s : String) : Prop :=
  ∃ (secure : Bool) (host digits rest : List Char),
    s.data = (schemeStr secure).data ++ "://".data ++ host
        ++ "/courses/".data ++ digits ++ rest
    ∧ host ≠ [] ∧ (∀ c ∈ host, c ≠ '/')
    ∧ digits ≠ [] ∧ (∀ c ∈ digits, pyIsDigit c = true)

theorem extractRest_success {secure : Bool} {r2 : List Char}
    (h : extractRest secure r2 ≠ (none, none)) :
    ∃ host digits rest,
      r2 = "://".data ++ (host ++ ("/courses/".data ++ (digits ++ rest)))
      ∧ host ≠ [] ∧ (∀ c ∈ host, c ≠ '/')
      ∧ digits ≠ [] ∧ (∀ c ∈ digits, pyIsDigit c = true) := by
  unfold extractRest at h
  cases h3 : chompLit "://".data r2 with
  | none => rw [h3] at h; exact absurd rfl h
  | some r3 =>
    rw [h3] at h
    dsimp only at h
    by_cases hhost : r3.takeWhile (fun c => c != '/') = []
    · rw [if_pos hhost] at h; exact absurd rfl h
    · rw [if_neg hhost] at h
      cases h4 : chompLit "/courses/".data (r3.dropWhile (fun c => c != '/')) with
      | none => rw [h4] at h; exact absurd rfl h
      | some r4 =>
        rw [h4] at h
        dsimp only at h
        by_cases hdig : r4.takeWhile pyIsDigit = []
        · rw [if_pos hdig] at h; exact absurd rfl h
        · refine ⟨r3.takeWhile (fun c => c != '/'), r4.takeWhile pyIsDigit,
            r4.dropWhile pyIsDigit, ?_, hhost, ?_, hdig, ?_⟩
          · exact (calc
              "://".data ++ (List.takeWhile (fun c => c != '/') r3
                  ++ ("/courses/".data ++ (List.takeWhile pyIsDigit r4
                      ++ List.dropWhile pyIsDigit r4)))
                  = "://".data ++ (List.takeWhile (fun c => c != '/') r3
                      ++ ("/courses/".data ++ r4)) := by
                    rw [List.takeWhile_append_dropWhile]
              _ = "://".data ++ (List.takeWhile (fun c => c != '/') r3
                      ++ List.dropWhile (fun c => c != '/') r3) := by
                    rw [← chompLit_some h4]
              _ = "://".data ++ r3 := by rw [List.takeWhile_append_dropWhile]
              _ = r2 := (chompLit_some h3).symm).symm
          · intro c hc
            have := mem_takeWhile hc
            simpa [bne_iff_ne] using this
          · intro c hc
            exact mem_takeWhile hc

theorem extract_url_parts_success {s : String}
    (h : extract_url_parts s ≠ (none, none)) : MatchesPattern s := by
  unfold extract_url_parts at h
  cases h1 : chompLit "http".data s.data with
  | none => rw [h1] at h; exact absurd rfl h
  | some r1 =>
    rw [h1] at h
    dsimp only at h
    obtain ⟨host, digits, rest, hr2, hh1, hh2, hd1, hd2⟩ := extractRest_success h
    have hs : s.data = "http".data ++ r1 := chompLit_some h1
    cases r1 with
    | nil =>
      rw [show schemeStep [] = (false, []) from rfl] at hr2
      simp at hr2
    | cons c rest1 =>
      by_cases hc : c = 's'
      · subst hc
        rw [show schemeStep ('s' :: rest1) = (true, rest1) from rfl] at hr2
        dsimp only at hr2
        refine ⟨true, host, digits, rest, ?_, hh1, hh2, hd1, hd2⟩
        rw [hs, hr2, show (schemeStr true).data = "http".data ++ ['s'] from by decide]
        simp [List.append_assoc]
      · rw [show schemeStep (c :: rest1) = (false, c :: rest1) from
            by simp [schemeStep, hc]] at hr2
        dsimp only at hr2
        refine ⟨false, host, digits, rest, ?_, hh1, hh2, hd1, hd2⟩
        rw [hs, hr2, show (schemeStr false).data = "http".data from by decide]
        simp [List.append_assoc]

theorem extractRest_complete (secure : Bool) (host digits rest : List Char)
    (hh1 : host ≠ []) (hh2 : ∀ c ∈ host, c ≠ '/')
    (hd1 : digits ≠ []) (hd2 : ∀ c ∈ digits, pyIsDigit c = true)
    (hr : ∀ c ∈ rest.take 1, pyIsDigit c = false) :
    extractRest secure
        ("://".data ++ (host ++ ("/courses/".data ++ (digits ++ rest))))
      = (some (schemeStr secure ++ "://" ++ String.mk host ++ "/"),
         some (natOfDigits digits)) := by
  have hb : ∀ a ∈ host, (a != '/') = true := fun a ha => by
    simp [bne_iff_ne, hh2 a ha]
  have hdig : (digits ++ rest).takeWhile pyIsDigit = digits := by
    cases rest with
    | nil => rw [List.append_nil]; exact takeWhile_all hd2
    | cons c r' => exact takeWhile_append_stop hd2 (hr c (by simp)) r'
  unfold extractRest
  rw [chompLit_self_append]
  dsimp only
  rw [show (['/', 'c', 'o', 'u', 'r', 's', 'e', 's', '/'] : List Char)
        ++ (digits ++ rest)
        = '/' :: ("courses/".data ++ (digits ++ rest)) from rfl]
  rw [takeWhile_append_stop hb (by decide) ("courses/".data ++ (digits ++ rest)),
    dropWhile_append_stop hb (by decide) ("courses/".data ++ (digits ++ rest)),
    if_neg hh1]
  rw [show ('/' :: ("courses/".data ++ (digits ++ rest)))
        = (['/', 'c', 'o', 'u', 'r', 's', 'e', 's', '/'] : List Char)
            ++ (digits ++ rest) from rfl]
  rw [chompLit_self_append]
  dsimp only
  rw [hdig, if_neg hd1]
  rfl

theorem extract_url_parts_complete (secure : Bool) (host digits rest : List Char)
    (s : String)
    (he : s.data = (schemeStr secure).data ++ "://".data ++ host
        ++ "/courses/".data ++ digits ++ rest)
    (hh1 : host ≠ []) (hh2 : ∀ c ∈ host, c ≠ '/')
    (hd1 : digits ≠ []) (hd2 : ∀ c ∈ digits, pyIsDigit c = true)
    (hr : ∀ c ∈ rest.take 1, pyIsDigit c = false) :
    extract_url_parts s
      = (some (schemeStr secure ++ "://" ++ String.mk host ++ "/"),
         some (natOfDigits digits)) := by
  unfold extract_url_parts
  cases secure with
  | false =>
    have hX : s.data = "http".data
        ++ ("://".data ++ (host ++ ("/courses/".data ++ (digits ++ rest)))) := by
      rw [he, show (schemeStr false).data = "http".data from by decide]
      simp [List.append_assoc]
    rw [hX, chompLit_self_append]
    dsimp only
    rw [show ("://".data ++ (host ++ ("/courses/".data ++ (digits ++ rest))))
          = ':' :: ('/' :: ('/' :: (host ++ ("/courses/".data ++ (digits ++ rest)))))
        from rfl]
    rw [show schemeStep
          (':' :: ('/' :: ('/' :: (host ++ ("/courses/".data ++ (digits ++ rest))))))
          = (false, ':' :: ('/' :: ('/' :: (host ++ ("/courses/".data ++ (digits ++ rest))))))
        from by simp [schemeStep]]
    dsimp only
    exact extractRest_complete false host digits rest hh1 hh2 hd1 hd2 hr
  | true =>
    have hX : s.data = "http".data
        ++ ('s' :: ("://".data ++ (host ++ ("/courses/".data ++ (digits ++ rest))))) := by
      rw [he, show (schemeStr true).data = "http".data ++ ['s'] from by decide]
      simp [List.append_assoc]
    rw [hX, chompLit_self_append]
    dsimp only
    rw [show schemeStep
          ('s' :: ("://".data ++ (host ++ ("/courses/".data ++ (digits ++ rest)))))
          = (true, "://".data ++ (host ++ ("/courses/".data ++ (digits ++ rest))))
        from rfl]
    dsimp only
    exact extractRest_complete true host digits rest hh1 hh2 hd1 hd2 hr

/-- C7: the parser maps `https://host/courses/123` to
`("https://host/", 123)`, and any string in which the pattern
`scheme://host/courses/{digits}` does not match (at the start, in the
`re.match` sense) yields the sentinel `(None, None)`. -/
theorem c7_url_parse :
    extract_url_parts "https://host/courses/123" = (some "https://host/", some 123)
    ∧ ∀ s : String, ¬ MatchesPattern s → extract_url_parts s = (none, none) := by
  refine ⟨by decide, ?_⟩
  intro s hm
  by_contra hne
  exact hm (extract_url_parts_success hne)

/-- Any string the pattern matches starts with `http`. -/
theorem matchesPattern_take4 {s : String} (h : MatchesPattern s) :
    s.data.take 4 = "http".data := by
  obtain ⟨secure, host, digits, rest, he, -, -, -, -⟩ := h
  cases secure with
  | false =>
    rw [he, show (schemeStr false).data = "http".data from by decide]
    simp only [List.append_assoc]
    rfl
  | true =>
    rw [he, show (schemeStr true).data = "https".data from by decide]
    simp only [List.append_assoc]
    rfl

/-- Concrete instance of C7's negative direction: `notaurl` does not match
the pattern and the parser returns the sentinel. -/
theorem c7_url_parse_witness :
    extract_url_parts "notaurl" = (none, none) :=
  c7_url_parse.2 "notaurl" fun hm =>
    absurd (matchesPattern_take4 hm) (by decide)

/-- C10: `extract_url_parts` matches only a prefix: whenever the string
begins with `http` or `https`, `://`, a nonempty host without `/`,
`/courses/` and a nonempty digit run (with the trailing remainder not
extending the run), it succeeds regardless of the trailing characters,
returning the base URL and the leading digit run as the course id — in
particular the non-secure `http` scheme is accepted, as in
`http://h/courses/123abc ↦ ("http://h/", 123)`. -/
theorem c10_url_parser_prefix_match :
    extract_url_parts "http://h/courses/123abc" = (some "http://h/", some 123)
    ∧ ∀ (secure : Bool) (host digits rest : List Char) (s : String),
        s.data = (schemeStr secure).data ++ "://".data ++ host
            ++ "/courses/".data ++ digits ++ rest →
        host ≠ [] → (∀ c ∈ host, c ≠ '/') →
        digits ≠ [] → (∀ c ∈ digits, pyIsDigit c = true) →
        (∀ c ∈ rest.take 1, pyIsDigit c = false) →
        extract_url_parts s
          = (some (schemeStr secure ++ "://" ++ String.mk host ++ "/"),
             some (natOfDigits digits)) := by
  refine ⟨by decide, ?_⟩
  intro secure host digits rest s he hh1 hh2 hd1 hd2 hr
  exact extract_url_parts_complete secure host digits rest s he hh1 hh2 hd1 hd2 hr

/-- Concrete instance of C10's universal part, discharging the decomposition
hypotheses on `http://h/courses/7x`. -/
theorem c10_url_parser_prefix_match_witness :
    extract_url_parts "http://h/courses/7x"
      = (some (schemeStr false ++ "://" ++ String.mk ['h'] ++ "/"),
         some (natOfDigits ['7'])) :=
  c10_url_parser_prefix_match.2 false ['h'] ['7'] ['x'] "http://h/courses/7x"
    (by decide) (by decide) (by decide) (by decide) (by decide) (by decide)

end GetSubmissions
